import Mathlib

/-!
Verification of the Chipi-ia credential store (`app/database.py`) and
per-user memory store (`app/memory.py`) against their specification.

Modelling conventions (shallow embedding of the Python source):
* Python `dict`s are association lists (`List (String × α)`) with the exact
  insertion-order semantics of CPython dicts: assignment to an existing key
  replaces in place, assignment to a fresh key appends at the end
  (`ainsert`), `del` removes the key (`aerase`), lookup finds the unique
  binding (`alookup`).
* Timestamps (`datetime.now().isoformat()`) are modelled as `Nat` minutes;
  `timedelta(minutes=30)` is `+ 30`; `datetime.fromisoformat` is the
  identity and never fails on model states.
* Cryptographic digests (`hashlib.sha256`, `hashlib.pbkdf2_hmac`) are
  modelled by the free inductive `Digest`: collision-free (constructors are
  injective) and deterministic, which is the idealisation the source relies
  on.  Only equality of digests is ever observed by the code.
* Fresh randomness (`secrets.token_hex(16)`, `Fernet.generate_key()`) is
  passed in as an explicit parameter.
* File I/O failure points are modelled by `IOEnv`; a Python exception that
  escapes a method is an `Except.error`.
-/

/-! ## Association-list primitives (CPython `dict` semantics) -/

/-- `d[k]` / `k in d`: lookup of the (unique) binding for `k`. -/
def alookup (k : String) : List (String × α) → Option α
  | [] => none
  | (k', v) :: t => if k = k' then some v else alookup k t

/-- `d[k] = v`: replace in place when present, append when absent. -/
def ainsert (k : String) (v : α) : List (String × α) → List (String × α)
  | [] => [(k, v)]
  | (k', v') :: t => if k' = k then (k, v) :: t else (k', v') :: ainsert k v t

/-- `del d[k]`: remove the binding for `k` (keys are unique in any state
that mirrors a Python dict, so removing every occurrence is the same
operation and keeps the model total on all lists). -/
def aerase (k : String) : List (String × α) → List (String × α)
  | [] => []
  | (k', v) :: t => if k' = k then aerase k t else (k', v) :: aerase k t

theorem alookup_ainsert_self (k : String) (v : α) (l : List (String × α)) :
    alookup k (ainsert k v l) = some v := by
  induction l with
  | nil => simp [ainsert, alookup]
  | cons p t ih =>
    by_cases h : p.1 = k
    · simp [ainsert, alookup, h]
    · have hk : ¬k = p.1 := fun h' => h h'.symm
      simp [ainsert, alookup, h, hk, ih]

theorem alookup_ainsert_ne (k k' : String) (v : α) (l : List (String × α))
    (h : k' ≠ k) : alookup k' (ainsert k v l) = alookup k' l := by
  induction l with
  | nil => simp [ainsert, alookup, h]
  | cons p t ih =>
    by_cases hp : p.1 = k
    · subst hp
      simp [ainsert, alookup, h]
    · by_cases hk : k' = p.1
      · simp [ainsert, alookup, hp, hk]
      · simp [ainsert, alookup, hp, hk, ih]

theorem alookup_aerase_ne (k k' : String) (l : List (String × α))
    (h : k' ≠ k) : alookup k' (aerase k l) = alookup k' l := by
  induction l with
  | nil => simp [aerase]
  | cons p t ih =>
    by_cases hp : p.1 = k
    · subst hp
      simp [aerase, alookup, h, ih]
    · by_cases hk : k' = p.1
      · simp [aerase, alookup, hp, hk]
      · simp [aerase, alookup, hp, hk, ih]

theorem alookup_aerase_self (k : String) (l : List (String × α)) :
    alookup k (aerase k l) = none := by
  induction l with
  | nil => simp [aerase, alookup]
  | cons p t ih =>
    by_cases hp : p.1 = k
    · simp [aerase, hp, ih]
    · have hk : ¬k = p.1 := fun h' => hp h'.symm
      simp [aerase, alookup, hp, hk, ih]

theorem alookup_mem_keys (k : String) (l : List (String × α)) (v : α)
    (h : alookup k l = some v) : k ∈ l.map Prod.fst := by
  induction l with
  | nil => simp [alookup] at h
  | cons p t ih =>
    by_cases hp : k = p.1
    · simp [hp]
    · simp [alookup, hp] at h
      simp [ih h]

/-! ## Digests (`hashlib` calls in `database.py`) -/

/-- Cryptographic digests, modelled as a free (collision-free) inductive:
`sha256 s` is `hashlib.sha256(s.encode()).hexdigest()`,
`pbkdf2Sha256 p s n` is `hashlib.pbkdf2_hmac('sha256', p, s, n).hex()`. -/
inductive Digest where
  | sha256 (data : String)
  | pbkdf2Sha256 (password salt : String) (iterations : Nat)
deriving DecidableEq

/-! ## Credential records and database (`database.py` data model) -/

/-- A user preference value (`preferences` holds booleans and strings). -/
inductive PrefValue where
  | bool (b : Bool)
  | str (s : String)
deriving DecidableEq

/-- One user record, as created by `DatabaseManager.create_user`. -/
structure UserRecord where
  password_hash : Digest
  salt : Option String
  created_at : Nat
  last_login : Option Nat
  is_active : Bool
  login_attempts : Nat
  locked_until : Option Nat
  preferences : List (String × PrefValue)
deriving DecidableEq

/-- The `metadata` block of the credential file. -/
structure DbMetadata where
  version : String
  created_at : Nat
  last_modified : Nat
  user_count : Nat
  integrity_hash : Digest
deriving DecidableEq

/-- A parsed credential database file. -/
structure Db where
  metadata : DbMetadata
  users : List (String × UserRecord)
deriving DecidableEq

/-! Canonical serialization used by `_calculate_integrity_hash`
(`json.dumps(data, sort_keys=True)`): keys sorted, then a deterministic
rendering of every field. -/

def digestStr : Digest → String
  | .sha256 s => "sha256(" ++ s ++ ")"
  | .pbkdf2Sha256 p s n => "pbkdf2(" ++ p ++ "," ++ s ++ "," ++ toString n ++ ")"

def optNatStr : Option Nat → String
  | none => "null"
  | some n => toString n

def prefValueStr : PrefValue → String
  | .bool b => toString b
  | .str s => "\"" ++ s ++ "\""

def serializePrefs : List (String × PrefValue) → String
  | [] => ""
  | (k, v) :: t => k ++ ":" ++ prefValueStr v ++ ";" ++ serializePrefs t

def serializeRecord (r : UserRecord) : String :=
  digestStr r.password_hash ++ "|" ++
    (match r.salt with | none => "null" | some s => s) ++ "|" ++
    toString r.created_at ++ "|" ++ optNatStr r.last_login ++ "|" ++
    toString r.is_active ++ "|" ++ toString r.login_attempts ++ "|" ++
    optNatStr r.locked_until ++ "|" ++ serializePrefs r.preferences

def insertSortedUser (p : String × UserRecord) :
    List (String × UserRecord) → List (String × UserRecord)
  | [] => [p]
  | q :: t => if p.1 ≤ q.1 then p :: q :: t else q :: insertSortedUser p t

/-- `sort_keys=True` canonicalization of the `users` mapping. -/
def sortByKey (l : List (String × UserRecord)) : List (String × UserRecord) :=
  l.foldr insertSortedUser []

def serializeUsers : List (String × UserRecord) → String
  | [] => ""
  | (k, r) :: t => "\"" ++ k ++ "\":\x7b" ++ serializeRecord r ++ "\x7d," ++ serializeUsers t

/-- `DatabaseManager._calculate_integrity_hash`. -/
def calculateIntegrityHash (users : List (String × UserRecord)) : Digest :=
  .sha256 (serializeUsers (sortByKey users))

/-- `DatabaseManager._verify_data_integrity` (on a parsed file the
`"metadata"`/`"users"` keys are always present). -/
def verifyDataIntegrity (db : Db) : Bool :=
  decide (db.metadata.integrity_hash = calculateIntegrityHash db.users)

/-- `DatabaseManager._repair_database_data`: refresh the metadata, in
particular recompute `integrity_hash` from the current `users`. -/
def repairDatabaseData (now : Nat) (db : Db) : Db :=
  { db with
    metadata :=
      { db.metadata with
        version := "2.1.0"
        last_modified := now
        user_count := db.users.length
        integrity_hash := calculateIntegrityHash db.users } }

theorem verify_repairDatabaseData (now : Nat) (db : Db) :
    verifyDataIntegrity (repairDatabaseData now db) = true := by
  simp [verifyDataIntegrity, repairDatabaseData]

/-! ## Configuration constants (`config.py`) -/

/-- `AppConfig.PASSWORD_MIN_LENGTH`. -/
def PASSWORD_MIN_LENGTH : Nat := 6

/-- `AppConfig.MAX_LOGIN_ATTEMPTS`. -/
def MAX_LOGIN_ATTEMPTS : Nat := 5

/-- Lockout window: `timedelta(minutes=30)` in `validate_user`. -/
def LOCKOUT_MINUTES : Nat := 30

/-! ## Credential-store operations (`database.py`) -/

/-- `DatabaseManager._hash_password`: PBKDF2 with an optional caller-provided
salt; `freshSalt` stands for the `secrets.token_hex(16)` draw taken when
`salt is None`. -/
def hashPassword (password : String) (salt : Option String)
    (freshSalt : String) : Digest × String :=
  let s := match salt with | none => freshSalt | some s => s
  (.pbkdf2Sha256 password s 100000, s)

/-- `DatabaseManager._is_account_locked`: locked while `now < locked_until`
(a missing / null `locked_until` is falsy). -/
def isAccountLocked (u : UserRecord) (now : Nat) : Bool :=
  match u.locked_until with
  | none => false
  | some t => decide (now < t)

/-- `DatabaseManager._validate_phone_format`.  Python's `str.isdigit` is
false on the empty string and true only when every character is a digit
(modelled over ASCII digits). -/
def validatePhoneFormat (phone : String) : Bool :=
  (decide (phone ≠ "") && phone.data.all Char.isDigit) &&
    decide (phone.length = 10) && "3".data.isPrefixOf phone.data

/-- `DatabaseManager._validate_password_strength`: at least 6 characters,
at least 3 letters and at least 3 digits. -/
def validatePasswordStrength (password : String) : Bool :=
  if password.length < PASSWORD_MIN_LENGTH then false
  else decide (3 ≤ password.data.countP Char.isAlpha) &&
       decide (3 ≤ password.data.countP Char.isDigit)

/-- `DatabaseManager._save_database`, database-content part: refresh
`last_modified`, `user_count` and `integrity_hash` before writing.  The
backup copy and the file write themselves live in the filesystem layer. -/
def saveDatabasePure (now : Nat) (db : Db) : Db :=
  { db with
    metadata :=
      { db.metadata with
        last_modified := now
        user_count := db.users.length
        integrity_hash := calculateIntegrityHash db.users } }

/-- Result of a mutating credential-store call: the boolean returned to the
caller, the database content after the call, and whether
`_save_database` was invoked. -/
structure DbOpResult where
  result : Bool
  db : Db
  saved : Bool
deriving DecidableEq

/-- Default preferences installed by `create_user`. -/
def defaultPreferences : List (String × PrefValue) :=
  [("audio_enabled", .bool true), ("font_size", .str "medium"),
   ("theme", .str "default")]

/-- The record stored by `create_user`. -/
def newUserRecord (password : String) (freshSalt : String) (now : Nat) :
    UserRecord :=
  { password_hash := .pbkdf2Sha256 password freshSalt 100000
    salt := some freshSalt
    created_at := now
    last_login := none
    is_active := true
    login_attempts := 0
    locked_until := none
    preferences := defaultPreferences }

/-- `DatabaseManager.create_user`. -/
def createUser (db : Db) (phone password : String) (now : Nat)
    (freshSalt : String) : DbOpResult :=
  if ¬ validatePhoneFormat phone then ⟨false, db, false⟩
  else if ¬ validatePasswordStrength password then ⟨false, db, false⟩
  else
    match alookup phone db.users with
    | some _ => ⟨false, db, false⟩
    | none =>
      let db' := { db with
        users := ainsert phone (newUserRecord password freshSalt now) db.users }
      ⟨true, saveDatabasePure now db', true⟩

/-- `DatabaseManager.validate_user`.  `freshSalt` is the salt drawn when the
legacy-migration branch re-hashes the password. -/
def validateUser (db : Db) (phone password : String) (now : Nat)
    (freshSalt : String) : DbOpResult :=
  match alookup phone db.users with
  | none => ⟨false, db, false⟩
  | some u =>
    if isAccountLocked u now then ⟨false, db, false⟩
    else
      match u.salt with
      | none =>
        -- legacy path: unsalted single-round SHA-256
        if Digest.sha256 password = u.password_hash then
          let (newHash, newSalt) := hashPassword password none freshSalt
          let u' := { u with
            password_hash := newHash
            salt := some newSalt
            login_attempts := 0
            last_login := some now }
          ⟨true, saveDatabasePure now { db with users := ainsert phone u' db.users }, true⟩
        else ⟨false, db, false⟩
      | some s =>
        let (inputHash, _) := hashPassword password (some s) freshSalt
        if inputHash = u.password_hash then
          let u' := { u with
            login_attempts := 0
            last_login := some now
            locked_until := none }
          ⟨true, saveDatabasePure now { db with users := ainsert phone u' db.users }, true⟩
        else
          let attempts := u.login_attempts + 1
          let u' := { u with
            login_attempts := attempts
            locked_until :=
              if MAX_LOGIN_ATTEMPTS ≤ attempts then some (now + LOCKOUT_MINUTES)
              else u.locked_until }
          ⟨false, saveDatabasePure now { db with users := ainsert phone u' db.users }, true⟩

/-- `DatabaseManager.update_user_preference`. -/
def updateUserPreference (db : Db) (phone pref : String) (v : PrefValue)
    (now : Nat) : DbOpResult :=
  match alookup phone db.users with
  | none => ⟨false, db, false⟩
  | some u =>
    let u' := { u with preferences := ainsert pref v u.preferences }
    ⟨true, saveDatabasePure now { db with users := ainsert phone u' db.users }, true⟩

/-- `DatabaseManager.delete_user`. -/
def deleteUser (db : Db) (phone : String) (now : Nat) : DbOpResult :=
  match alookup phone db.users with
  | none => ⟨false, db, false⟩
  | some _ => ⟨true, saveDatabasePure now { db with users := aerase phone db.users }, true⟩

/-- The sensitive-field-free view returned by `get_user_data`. -/
structure SafeUserData where
  created_at : Nat
  last_login : Option Nat
  is_active : Bool
  login_attempts : Nat
  locked_until : Option Nat
  preferences : List (String × PrefValue)
deriving DecidableEq

/-- `DatabaseManager.get_user_data`: copy without `password_hash`/`salt`. -/
def getUserData (db : Db) (phone : String) : Option SafeUserData :=
  (alookup phone db.users).map fun u =>
    ⟨u.created_at, u.last_login, u.is_active, u.login_attempts,
     u.locked_until, u.preferences⟩

/-- One row of `get_all_users`. -/
structure UserSummary where
  phone : String
  created_at : Nat
  last_login : Option Nat
  is_active : Bool
deriving DecidableEq

/-- `DatabaseManager.get_all_users`. -/
def getAllUsers (db : Db) : List UserSummary :=
  db.users.map fun p => ⟨p.1, p.2.created_at, p.2.last_login, p.2.is_active⟩

/-! ## Filesystem layer (`database.py` file handling, `BackupManager`) -/

/-- Injection points for I/O failure: `readFails` makes opening/reading the
credential file raise, `writeFails` makes any file write/copy raise. -/
structure IOEnv where
  readFails : Bool
  writeFails : Bool
deriving DecidableEq

/-- On-disk state seen by `DatabaseManager`: the credential file (parsed)
and the backup files, most recent first. -/
structure FsState where
  usersFile : Option Db
  backups : List Db
deriving DecidableEq

/-- A fresh empty database, as written by `_create_empty_db` /
`_create_empty_db_structure` (the transient `""` integrity hash is
overwritten before the structure is observable). -/
def freshEmptyDb (now : Nat) : Db :=
  { metadata :=
      { version := "2.1.0", created_at := now, last_modified := now
        user_count := 0, integrity_hash := calculateIntegrityHash [] }
    users := [] }

/-- `BackupManager.create_backup`: copy the live file into a new snapshot
and prune to the 5 most recent; returns false (file state unchanged) when
the live file is absent or the copy raises (own `try`). -/
def createBackupFs (env : IOEnv) (fs : FsState) : Bool × FsState :=
  match fs.usersFile with
  | none => (false, fs)
  | some db =>
    if env.writeFails then (false, fs)
    else (true, { fs with backups := (db :: fs.backups).take 5 })

/-- `BackupManager.get_latest_backup`. -/
def getLatestBackup (fs : FsState) : Option Db :=
  fs.backups.head?

/-- `BackupManager.restore_backup` (with no explicit handle): back up the
current file, then overwrite the live file with the latest backup. -/
def restoreBackupFs (env : IOEnv) (fs : FsState) : Bool × FsState :=
  match getLatestBackup fs with
  | none => (false, fs)
  | some b =>
    let fs1 := (createBackupFs env fs).2
    if env.writeFails then (false, fs1)
    else (true, { fs1 with usersFile := some b })

/-- `DatabaseManager._load_database`: parse the live file; on an integrity
mismatch repair the parsed data **in memory** (`_repair_database_data`); on
any read error fall back to `_create_empty_db_structure`.  Never raises. -/
def loadDatabaseFs (env : IOEnv) (fs : FsState) (now : Nat) : Db :=
  match fs.usersFile with
  | some db =>
    if env.readFails then freshEmptyDb now
    else if verifyDataIntegrity db then db
    else repairDatabaseData now db
  | none => freshEmptyDb now

/-- `DatabaseManager._create_empty_db`: write a fresh empty database; on a
write error it logs and **re-raises** (`raise` in the `except` block). -/
def createEmptyDbFs (env : IOEnv) (fs : FsState) (now : Nat) :
    Except Unit FsState :=
  if env.writeFails then .error ()
  else .ok { fs with usersFile := some (freshEmptyDb now) }

/-- `DatabaseManager._verify_database_integrity`. -/
def verifyDatabaseIntegrityFs (env : IOEnv) (fs : FsState) (now : Nat) : Bool :=
  verifyDataIntegrity (loadDatabaseFs env fs now)

/-- `DatabaseManager._repair_database`: restore from the latest backup when
one exists, otherwise create a fresh empty database; the `except` handler
itself calls `_create_empty_db`, whose failure escapes. -/
def repairDatabaseFs (env : IOEnv) (fs : FsState) (now : Nat) :
    Except Unit FsState :=
  match getLatestBackup fs with
  | some _ => .ok (restoreBackupFs env fs).2
  | none =>
    match createEmptyDbFs env fs now with
    | .ok fs' => .ok fs'
    | .error _ => createEmptyDbFs env fs now

/-- `DatabaseManager.initialize`: create an empty database when the file is
absent; otherwise check integrity, repair on mismatch, and take a backup.
Not wrapped in `try`, so `_create_empty_db` failures propagate. -/
def dbInitFs (env : IOEnv) (fs : FsState) (now : Nat) : Except Unit FsState :=
  match fs.usersFile with
  | none => createEmptyDbFs env fs now
  | some _ =>
    let step : Except Unit FsState :=
      if verifyDatabaseIntegrityFs env fs now then .ok fs
      else repairDatabaseFs env fs now
    match step with
    | .error e => .error e
    | .ok fs1 => .ok (createBackupFs env fs1).2

/-- File-write part of `_save_database`: take a pre-save backup, then do
the atomic write-and-replace; a write error is caught and reported as
`false`. -/
def saveDatabaseFsWrite (env : IOEnv) (fs : FsState) (db : Db) :
    Bool × FsState :=
  let fs1 := (createBackupFs env fs).2
  if env.writeFails then (false, fs1)
  else (true, { fs1 with usersFile := some db })

/-- Write-through of a credential-store call: persist exactly when the pure
operation invoked `_save_database`. -/
def commitDbOp (env : IOEnv) (fs : FsState) (r : DbOpResult) :
    Bool × FsState :=
  if r.saved then saveDatabaseFsWrite env fs r.db
  else (r.result, fs)

/-- `create_user` at the public boundary (whole body inside `try`): the
returned boolean is the result of `_save_database`. -/
def createUserE (env : IOEnv) (fs : FsState) (phone password : String)
    (now : Nat) (freshSalt : String) : Except Unit (Bool × FsState) :=
  .ok (commitDbOp env fs (createUser (loadDatabaseFs env fs now) phone password now freshSalt))

/-- `validate_user` at the public boundary (whole body inside `try`); the
save result is ignored, the validation boolean is returned. -/
def validateUserE (env : IOEnv) (fs : FsState) (phone password : String)
    (now : Nat) (freshSalt : String) : Except Unit (Bool × FsState) :=
  let r := validateUser (loadDatabaseFs env fs now) phone password now freshSalt
  .ok (r.result, (commitDbOp env fs r).2)

/-- `get_user_data` at the public boundary. -/
def getUserDataE (env : IOEnv) (fs : FsState) (phone : String) (now : Nat) :
    Except Unit (Option SafeUserData) :=
  .ok (getUserData (loadDatabaseFs env fs now) phone)

/-- `update_user_preference` at the public boundary. -/
def updateUserPreferenceE (env : IOEnv) (fs : FsState) (phone pref : String)
    (v : PrefValue) (now : Nat) : Except Unit (Bool × FsState) :=
  .ok (commitDbOp env fs (updateUserPreference (loadDatabaseFs env fs now) phone pref v now))

/-- `get_all_users` at the public boundary. -/
def getAllUsersE (env : IOEnv) (fs : FsState) (now : Nat) :
    Except Unit (List UserSummary) :=
  .ok (getAllUsers (loadDatabaseFs env fs now))

/-- `delete_user` at the public boundary. -/
def deleteUserE (env : IOEnv) (fs : FsState) (phone : String) (now : Nat) :
    Except Unit (Bool × FsState) :=
  .ok (commitDbOp env fs (deleteUser (loadDatabaseFs env fs now) phone now))

/-! ## Memory store (`memory.py`) -/

/-- A `cryptography.fernet.Fernet` instance: authenticated symmetric
encryption.  `decrypt` returns `none` when the token is invalid (the
Python call raises, caught by `_decrypt_data`). -/
structure Fernet where
  encrypt : String → String
  decrypt : String → Option String

/-- `MemoryManager._encrypt_data`: pass-through when there is no key or
the data is empty (falsy); errors fall back to the input. -/
def encryptData (fernet : Option Fernet) (data : String) : String :=
  match fernet with
  | none => data
  | some f => if data = "" then data else f.encrypt data

/-- `MemoryManager._decrypt_data`: pass-through when there is no key or
the input is empty; a failed decryption returns the input unchanged. -/
def decryptData (fernet : Option Fernet) (encrypted : String) : String :=
  match fernet with
  | none => encrypted
  | some f => if encrypted = "" then encrypted else (f.decrypt encrypted).getD encrypted

/-- One stored memory item (`store_item` value shape). -/
structure MemItem where
  value : String
  created_at : Nat
  last_updated : Nat
  description : String
deriving DecidableEq

/-- One memory category: items plus the encrypted flag fixed at creation
(the category-level description is absent on `_create_empty_memory`
skeletons). -/
structure MemCategory where
  items : List (String × MemItem)
  encrypted : Bool
  description : Option String
deriving DecidableEq

/-- One conversation-history entry (`add_conversation_entry`). -/
structure ConvEntry where
  timestamp : Nat
  user : String
  bot : String
  length : Nat
deriving DecidableEq

/-- The `metadata` block of a per-user memory file. -/
structure MemMetadata where
  version : String
  created_at : Nat
  last_updated : Nat
  owner : String
  encryption_enabled : Bool
deriving DecidableEq

/-- A parsed (and decrypted) per-user memory file. -/
structure Memory where
  metadata : MemMetadata
  categories : List (String × MemCategory)
  conversation_history : List ConvEntry
deriving DecidableEq

/-- The default category skeleton written by `_ensure_memory_structure`. -/
def defaultCategories : List (String × MemCategory) :=
  [("personal_info", ⟨[], true, some "Información personal del usuario"⟩),
   ("passwords", ⟨[], true, some "Contraseñas seguras"⟩),
   ("reminders", ⟨[], false, some "Recordatorios importantes"⟩),
   ("contacts", ⟨[], true, some "Contactos de emergencia y familiares"⟩),
   ("medical_info", ⟨[], true, some "Información médica importante"⟩),
   ("preferences", ⟨[], false, some "Preferencias de la aplicación"⟩),
   ("favorites", ⟨[], false, some "Aplicaciones y servicios favoritos"⟩)]

/-- `_ensure_memory_structure` default memory for a fresh file. -/
def defaultMemory (owner : String) (now : Nat) (encEnabled : Bool) : Memory :=
  { metadata := ⟨"2.1.0", now, now, owner, encEnabled⟩
    categories := defaultCategories
    conversation_history := [] }

/-- `_create_empty_memory` (no category descriptions). -/
def createEmptyMemory (owner : String) (now : Nat) (encEnabled : Bool) : Memory :=
  { metadata := ⟨"2.1.0", now, now, owner, encEnabled⟩
    categories :=
      [("personal_info", ⟨[], true, none⟩), ("passwords", ⟨[], true, none⟩),
       ("reminders", ⟨[], false, none⟩), ("contacts", ⟨[], true, none⟩),
       ("medical_info", ⟨[], true, none⟩), ("preferences", ⟨[], false, none⟩),
       ("favorites", ⟨[], false, none⟩)]
    conversation_history := [] }

/-- `_encrypt_memory_data` / `_decrypt_memory_data` share this shape: map a
codec over the values of every category flagged `encrypted`. -/
def mapEncryptedValues (codec : String → String) (m : Memory) : Memory :=
  { m with
    categories := m.categories.map fun (name, c) =>
      if c.encrypted then
        (name, { c with items := c.items.map fun (k, it) => (k, { it with value := codec it.value }) })
      else (name, c) }

/-- `MemoryManager._encrypt_memory_data`. -/
def encryptMemoryData (fernet : Option Fernet) (m : Memory) : Memory :=
  match fernet with
  | none => m
  | some _ => mapEncryptedValues (encryptData fernet) m

/-- `MemoryManager._decrypt_memory_data`. -/
def decryptMemoryData (fernet : Option Fernet) (m : Memory) : Memory :=
  match fernet with
  | none => m
  | some _ => mapEncryptedValues (decryptData fernet) m

/-- `MemoryManager.store_item` on the decrypted memory content: create the
category on first use (encrypted by default, description defaulting to
`"Categoría <name>"` when the argument is empty/falsy), then upsert the
item with both timestamps set to `now`. -/
def storeItem (m : Memory) (category key value description : String)
    (now : Nat) : Memory :=
  let m :=
    match alookup category m.categories with
    | some _ => m
    | none =>
      { m with
        categories := ainsert category
          ⟨[], true,
           some (if description = "" then "Categoría " ++ category else description)⟩
          m.categories }
  match alookup category m.categories with
  | none => m  -- unreachable: the category was just ensured
  | some c =>
    { m with
      categories := ainsert category
        { c with items := ainsert key ⟨value, now, now, description⟩ c.items }
        m.categories }

/-- `MemoryManager.get_item`. -/
def getItem (m : Memory) (category key : String) : Option String :=
  match alookup category m.categories with
  | none => none
  | some c => (alookup key c.items).map MemItem.value

/-- `MemoryManager.get_item_details`. -/
def getItemDetails (m : Memory) (category key : String) : Option MemItem :=
  match alookup category m.categories with
  | none => none
  | some c => alookup key c.items

/-- `MemoryManager.get_category_items`. -/
def getCategoryItems (m : Memory) (category : String) : List (String × String) :=
  match alookup category m.categories with
  | none => []
  | some c => c.items.map fun (k, it) => (k, it.value)

/-- `MemoryManager.remove_item`; the boolean tells whether the item existed
(and hence `_save_memory` ran). -/
def removeItem (m : Memory) (category key : String) : Bool × Memory :=
  match alookup category m.categories with
  | none => (false, m)
  | some c =>
    match alookup key c.items with
    | none => (false, m)
    | some _ =>
      (true,
       { m with categories := ainsert category { c with items := aerase key c.items } m.categories })

/-- Sum of the stored `length` fields (`sum(entry.get("length", 0) ...)`). -/
def totalLen (h : List ConvEntry) : Nat :=
  (h.map ConvEntry.length).sum

/-- The size-bound loop of `add_conversation_entry`: pop from the front
while the total stored length exceeds 50000. -/
def evictOversize : List ConvEntry → List ConvEntry
  | [] => []
  | e :: t => if 50000 < totalLen (e :: t) then evictOversize t else e :: t

/-- The entry appended by `add_conversation_entry`. -/
def mkConvEntry (now : Nat) (userMsg botResp : String) : ConvEntry :=
  ⟨now, userMsg, botResp, userMsg.length + botResp.length⟩

/-- `MemoryManager.add_conversation_entry`: append, evict oldest while the
total length exceeds 50000, then keep only the last 100 entries. -/
def addConversationEntry (m : Memory) (userMsg botResp : String)
    (now : Nat) : Memory :=
  let h := m.conversation_history ++ [mkConvEntry now userMsg botResp]
  let h := evictOversize h
  let h := if 100 < h.length then h.drop (h.length - 100) else h
  { m with conversation_history := h }

/-- `MemoryManager._get_time_ago` (time in minutes; a negative `datetime`
difference truncates to 0, "hace unos momentos"). -/
def getTimeAgo (now ts : Nat) : String :=
  let diffMin := now - ts
  let days := diffMin / 1440
  let remMin := diffMin % 1440
  if 0 < days then "hace " ++ toString days ++ " días"
  else if 60 ≤ remMin then "hace " ++ toString (remMin / 60) ++ " horas"
  else if 1 ≤ remMin then "hace " ++ toString remMin ++ " minutos"
  else "hace unos momentos"

/-- `MemoryManager.get_recent_conversations`: most recent first, first
`limit` of them, each annotated with its relative-time string. -/
def getRecentConversations (m : Memory) (limit : Nat) (now : Nat) :
    List (ConvEntry × String) :=
  ((m.conversation_history.reverse).take limit).map fun c =>
    (c, getTimeAgo now c.timestamp)

/-! ## Search (`MemoryManager.search_memory`) -/

/-- Python's `str.lower()` (character-wise lowercasing). -/
def pyLower (s : String) : String :=
  ⟨s.data.map Char.toLower⟩

/-- Python's `str.strip()`: drop whitespace from both ends. -/
def pyStrip (s : String) : String :=
  ⟨((s.data.dropWhile Char.isWhitespace).reverse.dropWhile
      Char.isWhitespace).reverse⟩

/-- Python's `needle in hay` on lists of characters: contiguous-substring
test. -/
def infixCheck (needle : List Char) : List Char → Bool
  | [] => needle.isEmpty
  | c :: rest => needle.isPrefixOf (c :: rest) || infixCheck needle rest

/-- `sub in hay` on strings. -/
def containsSubstr (hay sub : String) : Bool :=
  infixCheck sub.data hay.data

/-- The per-item match test of `search_memory` (`query_lower` already
lowercased and stripped): substring of the key, the value or the
description, all lowercased. -/
def itemMatches (queryLower : String) (key : String) (it : MemItem) : Bool :=
  containsSubstr (pyLower key) queryLower ||
    containsSubstr (pyLower it.value) queryLower ||
    containsSubstr (pyLower it.description) queryLower

/-- One category match row built by `search_memory`. -/
structure MatchEntry where
  key : String
  value : String
  description : String
  created_at : Nat
  last_updated : Nat
deriving DecidableEq

def mkMatchEntry (key : String) (it : MemItem) : MatchEntry :=
  ⟨key, it.value, it.description, it.created_at, it.last_updated⟩

/-- A value of the `search_memory` result dict: item matches for a
category, or conversation entries under the synthetic
`conversation_history` key. -/
inductive SearchHit where
  | items (ms : List MatchEntry)
  | convs (cs : List ConvEntry)
deriving DecidableEq

/-- The category loop of `search_memory`: for each name to search, collect
the matching items and assign them into the results dict when non-empty. -/
def searchCats (m : Memory) (queryLower : String) :
    List String → List (String × SearchHit) → List (String × SearchHit)
  | [], results => results
  | cat :: rest, results =>
    match alookup cat m.categories with
    | none => searchCats m queryLower rest results
    | some c =>
      let ms := c.items.filterMap fun p =>
        if itemMatches queryLower p.1 p.2 then some (mkMatchEntry p.1 p.2)
        else none
      if ms.isEmpty then searchCats m queryLower rest results
      else searchCats m queryLower rest (ainsert cat (.items ms) results)

/-- The per-conversation match test of `search_memory`. -/
def convMatches (queryLower : String) (c : ConvEntry) : Bool :=
  containsSubstr (pyLower c.user) queryLower ||
    containsSubstr (pyLower c.bot) queryLower

/-- `MemoryManager.search_memory`.  `category = none` models the `None`
default; a `some ""` filter is falsy in Python and behaves like `None` for
the category list and the conversation search. -/
def searchMemory (m : Memory) (query : String) (category : Option String) :
    List (String × SearchHit) :=
  let queryLower := pyStrip (pyLower query)
  let cats : List String :=
    match category with
    | none => m.categories.map Prod.fst
    | some c => if c = "" then m.categories.map Prod.fst else [c]
  let results := searchCats m queryLower cats []
  let searchConvs : Bool :=
    match category with
    | none => true
    | some c => c = "" || c = "conversation_history"
  if searchConvs then
    let cm := m.conversation_history.filter (convMatches queryLower)
    if cm.isEmpty then results
    else ainsert "conversation_history" (.convs cm) results
  else results

/-! ## Memory store at the public boundary (file + encryption layer) -/

/-- `MemoryManager.load_memory`: decrypt the stored file; on a read error
fall back to `_create_empty_memory`; when the file is absent,
`_ensure_memory_structure` writes and returns the default skeleton. -/
def loadMemoryFs (env : IOEnv) (fernet : Option Fernet)
    (memFile : Option Memory) (owner : String) (now : Nat) : Memory :=
  match memFile with
  | some m =>
    if env.readFails then createEmptyMemory owner now (fernet.isSome)
    else decryptMemoryData fernet m
  | none => defaultMemory owner now (fernet.isSome)

/-- `MemoryManager._save_memory`: refresh metadata, encrypt, atomic write;
a write error is caught and reported as `false`. -/
def saveMemoryFs (env : IOEnv) (fernet : Option Fernet)
    (memFile : Option Memory) (m : Memory) (now : Nat) :
    Bool × Option Memory :=
  if env.writeFails then (false, memFile)
  else
    let m' := { m with metadata :=
      { m.metadata with last_updated := now, encryption_enabled := fernet.isSome } }
    (true, some (encryptMemoryData fernet m'))

/-- `store_item` at the public boundary (whole body inside `try`). -/
def storeItemE (env : IOEnv) (fernet : Option Fernet)
    (memFile : Option Memory) (owner category key value description : String)
    (now : Nat) : Except Unit (Bool × Option Memory) :=
  let m := loadMemoryFs env fernet memFile owner now
  .ok (saveMemoryFs env fernet memFile (storeItem m category key value description now) now)

/-- `get_item` at the public boundary. -/
def getItemE (env : IOEnv) (fernet : Option Fernet)
    (memFile : Option Memory) (owner category key : String) (now : Nat) :
    Except Unit (Option String) :=
  .ok (getItem (loadMemoryFs env fernet memFile owner now) category key)

/-- `get_category_items` at the public boundary. -/
def getCategoryItemsE (env : IOEnv) (fernet : Option Fernet)
    (memFile : Option Memory) (owner category : String) (now : Nat) :
    Except Unit (List (String × String)) :=
  .ok (getCategoryItems (loadMemoryFs env fernet memFile owner now) category)

/-- `remove_item` at the public boundary. -/
def removeItemE (env : IOEnv) (fernet : Option Fernet)
    (memFile : Option Memory) (owner category key : String) (now : Nat) :
    Except Unit (Bool × Option Memory) :=
  let m := loadMemoryFs env fernet memFile owner now
  if (removeItem m category key).1 then
    .ok (saveMemoryFs env fernet memFile (removeItem m category key).2 now)
  else .ok (false, memFile)

/-- `add_conversation_entry` at the public boundary (returns no value). -/
def addConversationEntryE (env : IOEnv) (fernet : Option Fernet)
    (memFile : Option Memory) (owner userMsg botResp : String) (now : Nat) :
    Except Unit (Option Memory) :=
  let m := loadMemoryFs env fernet memFile owner now
  .ok (saveMemoryFs env fernet memFile (addConversationEntry m userMsg botResp now) now).2

/-- `get_recent_conversations` at the public boundary. -/
def getRecentConversationsE (env : IOEnv) (fernet : Option Fernet)
    (memFile : Option Memory) (owner : String) (limit now : Nat) :
    Except Unit (List (ConvEntry × String)) :=
  .ok (getRecentConversations (loadMemoryFs env fernet memFile owner now) limit now)

/-- `search_memory` at the public boundary. -/
def searchMemoryE (env : IOEnv) (fernet : Option Fernet)
    (memFile : Option Memory) (owner query : String)
    (category : Option String) (now : Nat) :
    Except Unit (List (String × SearchHit)) :=
  .ok (searchMemory (loadMemoryFs env fernet memFile owner now) query category)

/-! ## Operation sequences over the credential database -/

/-- A public mutating credential-store call (used to state invariants over
arbitrary call sequences). -/
inductive DbOp where
  | create (phone password : String) (now : Nat) (freshSalt : String)
  | validate (phone password : String) (now : Nat) (freshSalt : String)
  | updatePref (phone pref : String) (v : PrefValue) (now : Nat)
  | delete (phone : String) (now : Nat)

/-- Database content after one public call. -/
def applyDbOp (db : Db) : DbOp → Db
  | .create p pw n s => (createUser db p pw n s).db
  | .validate p pw n s => (validateUser db p pw n s).db
  | .updatePref p k v n => (updateUserPreference db p k v n).db
  | .delete p n => (deleteUser db p n).db

/-- Database content after a sequence of public calls. -/
def applyDbOps (db : Db) (ops : List DbOp) : Db :=
  ops.foldl applyDbOp db

/-! ## C1 — `initialize()` and a mismatched integrity hash -/

theorem createBackupFs_usersFile (env : IOEnv) (fs : FsState) :
    ((createBackupFs env fs).2).usersFile = fs.usersFile := by
  unfold createBackupFs
  cases h : fs.usersFile with
  | none => simp [h]
  | some db => by_cases hw : env.writeFails <;> simp [h, hw]

/-- `_load_database` silently repairs the integrity hash in memory, so
`_verify_database_integrity` reports success on every state. -/
theorem verifyDatabaseIntegrityFs_true (env : IOEnv) (fs : FsState)
    (now : Nat) : verifyDatabaseIntegrityFs env fs now = true := by
  unfold verifyDatabaseIntegrityFs loadDatabaseFs
  cases h : fs.usersFile with
  | none => simp [freshEmptyDb, verifyDataIntegrity]
  | some db =>
    by_cases hr : env.readFails
    · simp [hr, freshEmptyDb, verifyDataIntegrity]
    · by_cases hv : verifyDataIntegrity db
      · simp [hr, hv]
      · simp [hr, hv, verify_repairDatabaseData]

/-- C1: if `initialize()` runs while the credential file is present but its
`integrity_hash` does not match the hash of its users subtree, the run
completes without repair and the mismatched file is still the active
database afterwards: contrary to the claim, neither a restore from backup
nor a fresh empty database happens, because `_load_database` recomputes the
hash in memory and `_verify_database_integrity` therefore never reports the
mismatch. -/
theorem c1_init_keeps_mismatched_file (env : IOEnv) (db : Db)
    (backups : List Db) (now : Nat)
    (_hmis : db.metadata.integrity_hash ≠ calculateIntegrityHash db.users) :
    ∃ fs', dbInitFs env ⟨some db, backups⟩ now = .ok fs' ∧
      fs'.usersFile = some db := by
  refine ⟨(createBackupFs env ⟨some db, backups⟩).2, ?_, ?_⟩
  · unfold dbInitFs
    simp [verifyDatabaseIntegrityFs_true]
  · exact createBackupFs_usersFile env ⟨some db, backups⟩

/-- A concrete credential file whose stored `integrity_hash` does not match
its users subtree. -/
def c1BadDb : Db :=
  { metadata :=
      { version := "2.1.0", created_at := 0, last_modified := 0
        user_count := 1, integrity_hash := .sha256 "" }
    users := [("3001234567", newUserRecord "abc123" "aa" 0)] }

theorem c1_init_keeps_mismatched_file_witness :
    ∃ fs', dbInitFs ⟨false, false⟩ ⟨some c1BadDb, []⟩ 7 = .ok fs' ∧
      fs'.usersFile = some c1BadDb :=
  c1_init_keeps_mismatched_file ⟨false, false⟩ c1BadDb [] 7 (by decide)

/-! ## C2 — brute-force lockout -/

theorem validateUser_locked (db : Db) (phone pw : String) (now : Nat)
    (fs : String) (u : UserRecord) (hu : alookup phone db.users = some u)
    (hl : isAccountLocked u now = true) :
    validateUser db phone pw now fs = ⟨false, db, false⟩ := by
  simp [validateUser, hu, hl]

theorem validateUser_fail_step (db : Db) (phone s correct wrong f : String)
    (ca : Nat) (ll : Option Nat) (ia : Bool) (k : Nat)
    (pr : List (String × PrefValue)) (t : Nat)
    (hu : alookup phone db.users =
      some ⟨.pbkdf2Sha256 correct s 100000, some s, ca, ll, ia, k, none, pr⟩)
    (hw : wrong ≠ correct) :
    validateUser db phone wrong t f =
      ⟨false,
        saveDatabasePure t
          { db with users := ainsert phone (UserRecord.mk
             (.pbkdf2Sha256 correct s 100000) (some s) ca ll ia (k + 1)
             (if MAX_LOGIN_ATTEMPTS ≤ k + 1 then some (t + LOCKOUT_MINUTES)
              else none) pr) db.users },
        true⟩ := by
  simp [validateUser, hu, isAccountLocked, hashPassword, hw]

/-- One failed attempt while the counter stays below the maximum. -/
theorem validateUser_fail_low (db : Db) (phone s correct wrong f : String)
    (ca : Nat) (ll : Option Nat) (ia : Bool) (k : Nat)
    (pr : List (String × PrefValue)) (t : Nat)
    (hu : alookup phone db.users =
      some ⟨.pbkdf2Sha256 correct s 100000, some s, ca, ll, ia, k, none, pr⟩)
    (hk : k + 1 < MAX_LOGIN_ATTEMPTS) (hw : wrong ≠ correct) :
    (validateUser db phone wrong t f).result = false ∧
    alookup phone (validateUser db phone wrong t f).db.users =
      some ⟨.pbkdf2Sha256 correct s 100000, some s, ca, ll, ia, k + 1, none, pr⟩ := by
  have he := validateUser_fail_step db phone s correct wrong f ca ll ia k pr t hu hw
  rw [if_neg (Nat.not_le.mpr hk)] at he
  constructor
  · rw [he]
  · rw [he]
    simpa [saveDatabasePure] using alookup_ainsert_self phone _ db.users

/-- The failed attempt that reaches the maximum and sets the lock. -/
theorem validateUser_fail_lock (db : Db) (phone s correct wrong f : String)
    (ca : Nat) (ll : Option Nat) (ia : Bool) (k : Nat)
    (pr : List (String × PrefValue)) (t : Nat)
    (hu : alookup phone db.users =
      some ⟨.pbkdf2Sha256 correct s 100000, some s, ca, ll, ia, k, none, pr⟩)
    (hk : MAX_LOGIN_ATTEMPTS ≤ k + 1) (hw : wrong ≠ correct) :
    (validateUser db phone wrong t f).result = false ∧
    alookup phone (validateUser db phone wrong t f).db.users =
      some ⟨.pbkdf2Sha256 correct s 100000, some s, ca, ll, ia, k + 1,
            some (t + LOCKOUT_MINUTES), pr⟩ := by
  have he := validateUser_fail_step db phone s correct wrong f ca ll ia k pr t hu hw
  rw [if_pos hk] at he
  constructor
  · rw [he]
  · rw [he]
    simpa [saveDatabasePure] using alookup_ainsert_self phone _ db.users

/-- C2 (amended): for a registered phone whose record is in the salted
(PBKDF2) form, 5 consecutive failed `validate_user` calls each return
false, the 5th sets `locked_until` to its own time plus 30 minutes, and
every later call — any password, any salt draw — is refused unchanged
while `now < locked_until`.  (The restriction to salted records is the
amendment: legacy `salt = null` records never count failures, see the
counterexample.) -/
theorem c2_lockout_after_five_salted_failures
    (db : Db) (phone s correct wrong : String)
    (ca : Nat) (ll : Option Nat) (ia : Bool) (pr : List (String × PrefValue))
    (t1 t2 t3 t4 t5 : Nat) (f1 f2 f3 f4 f5 : String)
    (hu : alookup phone db.users =
      some ⟨.pbkdf2Sha256 correct s 100000, some s, ca, ll, ia, 0, none, pr⟩)
    (hw : wrong ≠ correct) :
    (validateUser db phone wrong t1 f1).result = false ∧
    (validateUser (validateUser db phone wrong t1 f1).db
      phone wrong t2 f2).result = false ∧
    (validateUser (validateUser (validateUser db phone wrong t1 f1).db
      phone wrong t2 f2).db phone wrong t3 f3).result = false ∧
    (validateUser (validateUser (validateUser (validateUser db phone wrong
      t1 f1).db phone wrong t2 f2).db phone wrong t3 f3).db
      phone wrong t4 f4).result = false ∧
    (validateUser (validateUser (validateUser (validateUser (validateUser
      db phone wrong t1 f1).db phone wrong t2 f2).db phone wrong t3 f3).db
      phone wrong t4 f4).db phone wrong t5 f5).result = false ∧
    alookup phone (validateUser (validateUser (validateUser (validateUser
      (validateUser db phone wrong t1 f1).db phone wrong t2 f2).db
      phone wrong t3 f3).db phone wrong t4 f4).db
      phone wrong t5 f5).db.users =
      some ⟨.pbkdf2Sha256 correct s 100000, some s, ca, ll, ia,
            MAX_LOGIN_ATTEMPTS, some (t5 + LOCKOUT_MINUTES), pr⟩ ∧
    (∀ pw now' fs', now' < t5 + LOCKOUT_MINUTES →
      validateUser (validateUser (validateUser (validateUser (validateUser
        (validateUser db phone wrong t1 f1).db phone wrong t2 f2).db
        phone wrong t3 f3).db phone wrong t4 f4).db
        phone wrong t5 f5).db phone pw now' fs' =
      ⟨false,
       (validateUser (validateUser (validateUser (validateUser
         (validateUser db phone wrong t1 f1).db phone wrong t2 f2).db
         phone wrong t3 f3).db phone wrong t4 f4).db
         phone wrong t5 f5).db,
       false⟩) := by
  have h1 := validateUser_fail_low db phone s correct wrong f1
    ca ll ia 0 pr t1 hu (by decide) hw
  have h2 := validateUser_fail_low _ phone s correct wrong f2
    ca ll ia 1 pr t2 h1.2 (by decide) hw
  have h3 := validateUser_fail_low _ phone s correct wrong f3
    ca ll ia 2 pr t3 h2.2 (by decide) hw
  have h4 := validateUser_fail_low _ phone s correct wrong f4
    ca ll ia 3 pr t4 h3.2 (by decide) hw
  have h5 := validateUser_fail_lock _ phone s correct wrong f5
    ca ll ia 4 pr t5 h4.2 (by decide) hw
  refine ⟨h1.1, h2.1, h3.1, h4.1, h5.1, h5.2, ?_⟩
  intro pw now' fs' hlt
  exact validateUser_locked _ phone pw now' fs' _ h5.2
    (by simp [isAccountLocked, hlt])

/-- A database holding one freshly created (salted) user. -/
def c2SaltedDb : Db :=
  (createUser (freshEmptyDb 0) "3001234567" "abc123" 0 "aa").db

def c2Fail1 : DbOpResult := validateUser c2SaltedDb "3001234567" "xyz999" 1 "f1"
def c2Fail2 : DbOpResult := validateUser c2Fail1.db "3001234567" "xyz999" 2 "f2"
def c2Fail3 : DbOpResult := validateUser c2Fail2.db "3001234567" "xyz999" 3 "f3"
def c2Fail4 : DbOpResult := validateUser c2Fail3.db "3001234567" "xyz999" 4 "f4"
def c2Fail5 : DbOpResult := validateUser c2Fail4.db "3001234567" "xyz999" 5 "f5"

theorem c2_lockout_after_five_salted_failures_witness :
    c2Fail5.result = false ∧
    alookup "3001234567" c2Fail5.db.users =
      some ⟨.pbkdf2Sha256 "abc123" "aa" 100000, some "aa", 0, none, true, 5,
            some 35, defaultPreferences⟩ ∧
    validateUser c2Fail5.db "3001234567" "abc123" 6 "zz" =
      ⟨false, c2Fail5.db, false⟩ := by
  have h := c2_lockout_after_five_salted_failures c2SaltedDb "3001234567"
    "aa" "abc123" "xyz999" 0 none true defaultPreferences
    1 2 3 4 5 "f1" "f2" "f3" "f4" "f5" (by decide) (by decide)
  exact ⟨h.2.2.2.2.1, h.2.2.2.2.2.1, h.2.2.2.2.2.2 "abc123" 6 "zz" (by decide)⟩

/-- A database holding one legacy (unsalted SHA-256) record, as the spec's
pre-upgrade scenario constructs it. -/
def c2LegacyDb : Db :=
  { metadata :=
      { version := "2.1.0", created_at := 0, last_modified := 0
        user_count := 1
        integrity_hash := calculateIntegrityHash
          [("3001234567", ⟨.sha256 "abc123", none, 0, none, true, 0, none, []⟩)] }
    users := [("3001234567", ⟨.sha256 "abc123", none, 0, none, true, 0, none, []⟩)] }

/-- C2 counterexample: for a legacy (`salt = null`) registered phone the
claim fails — a failed `validate_user` call leaves the database completely
unchanged (no `login_attempts` increment), so after 5 consecutive failures
`locked_until` is still null and a 6th call with the correct password
returns true instead of false. -/
theorem c2_counterexample_legacy_escapes_lockout :
    validateUser c2LegacyDb "3001234567" "xyz999" 1 "f1" =
      ⟨false, c2LegacyDb, false⟩ ∧
    ((alookup "3001234567" c2LegacyDb.users).bind UserRecord.locked_until
      = none) ∧
    (validateUser c2LegacyDb "3001234567" "abc123" 6 "f6").result = true := by
  refine ⟨?_, by decide, by decide⟩
  decide

/-! ## C3 — one-way legacy migration -/

theorem saltSome_applyDbOp (phone : String) (db : Db) (op : DbOp)
    (h : ∀ u, alookup phone db.users = some u → u.salt.isSome) :
    ∀ u', alookup phone (applyDbOp db op).users = some u' → u'.salt.isSome := by
  intro u' hu'
  cases op with
  | create p pw n fsalt =>
    simp only [applyDbOp, createUser] at hu'
    by_cases h1 : validatePhoneFormat p = true
    · by_cases h2 : validatePasswordStrength pw = true
      · cases hl : alookup p db.users with
        | some v => simp [h1, h2, hl] at hu'; exact h u' hu'
        | none =>
          simp only [h1, h2, hl, not_true, if_false, saveDatabasePure] at hu'
          by_cases hp : phone = p
          · subst hp
            rw [alookup_ainsert_self] at hu'
            cases Option.some.inj hu'
            simp [newUserRecord]
          · rw [alookup_ainsert_ne _ _ _ _ hp] at hu'
            exact h u' hu'
      · simp [h1, h2] at hu'; exact h u' hu'
    · simp [h1] at hu'; exact h u' hu'
  | validate p pw n fsalt =>
    simp only [applyDbOp, validateUser] at hu'
    cases hl : alookup p db.users with
    | none => simp [hl] at hu'; exact h u' hu'
    | some v =>
      simp only [hl] at hu'
      by_cases hlk : isAccountLocked v n = true
      · simp [hlk] at hu'; exact h u' hu'
      · simp only [hlk, Bool.false_eq_true, if_false] at hu'
        cases hsv : v.salt with
        | none =>
          simp only [hsv] at hu'
          by_cases hsh : Digest.sha256 pw = v.password_hash
          · simp only [hsh, if_true, hashPassword, saveDatabasePure] at hu'
            by_cases hp : phone = p
            · subst hp
              rw [alookup_ainsert_self] at hu'
              cases Option.some.inj hu'
              simp
            · rw [alookup_ainsert_ne _ _ _ _ hp] at hu'
              exact h u' hu'
          · simp [hsh] at hu'; exact h u' hu'
        | some s0 =>
          simp only [hsv, hashPassword] at hu'
          by_cases hsh : Digest.pbkdf2Sha256 pw s0 100000 = v.password_hash
          · simp only [hsh, if_true, saveDatabasePure] at hu'
            by_cases hp : phone = p
            · subst hp
              rw [alookup_ainsert_self] at hu'
              cases Option.some.inj hu'
              simp [hsv]
            · rw [alookup_ainsert_ne _ _ _ _ hp] at hu'
              exact h u' hu'
          · simp only [hsh, if_false, saveDatabasePure] at hu'
            by_cases hp : phone = p
            · subst hp
              rw [alookup_ainsert_self] at hu'
              cases Option.some.inj hu'
              simp [hsv]
            · rw [alookup_ainsert_ne _ _ _ _ hp] at hu'
              exact h u' hu'
  | updatePref p k v0 n =>
    simp only [applyDbOp, updateUserPreference] at hu'
    cases hl : alookup p db.users with
    | none => simp [hl] at hu'; exact h u' hu'
    | some v =>
      simp only [hl, saveDatabasePure] at hu'
      by_cases hp : phone = p
      · subst hp
        rw [alookup_ainsert_self] at hu'
        cases Option.some.inj hu'
        simpa using h v hl
      · rw [alookup_ainsert_ne _ _ _ _ hp] at hu'
        exact h u' hu'
  | delete p n =>
    simp only [applyDbOp, deleteUser] at hu'
    cases hl : alookup p db.users with
    | none => simp [hl] at hu'; exact h u' hu'
    | some v =>
      simp only [hl, saveDatabasePure] at hu'
      by_cases hp : phone = p
      · subst hp
        rw [alookup_aerase_self] at hu'
        cases hu'
      · rw [alookup_aerase_ne _ _ _ hp] at hu'
        exact h u' hu'

theorem saltSome_applyDbOps (phone : String) (db : Db) (ops : List DbOp)
    (h : ∀ u, alookup phone db.users = some u → u.salt.isSome) :
    ∀ u', alookup phone (applyDbOps db ops).users = some u' → u'.salt.isSome := by
  induction ops generalizing db with
  | nil => simpa [applyDbOps] using h
  | cons op rest ih =>
    intro u' hu'
    exact ih (applyDbOp db op) (saltSome_applyDbOp phone db op h) u' hu'

theorem validateUser_correct_salted (db : Db) (phone pw s : String)
    (now : Nat) (fs : String) (u : UserRecord)
    (hu : alookup phone db.users = some u) (hs : u.salt = some s)
    (hh : u.password_hash = .pbkdf2Sha256 pw s 100000)
    (hnl : isAccountLocked u now = false) :
    (validateUser db phone pw now fs).result = true := by
  simp [validateUser, hu, hnl, hs, hh, hashPassword]

/-- The record written by the legacy-migration branch of `validate_user`. -/
def migratedRecord (u : UserRecord) (password freshSalt : String)
    (now : Nat) : UserRecord :=
  { u with
    password_hash := .pbkdf2Sha256 password freshSalt 100000
    salt := some freshSalt
    login_attempts := 0
    last_login := some now }

/-- C3: a stored record with `salt = null` and `password_hash` equal to the
unsalted single-round SHA-256 of the password authenticates via
`validate_user`; the stored record is immediately re-salted with a PBKDF2
digest that verifies the same password, and — over every subsequent
sequence of public calls — the record's salt stays non-null, so the legacy
path is never taken again. -/
theorem c3_legacy_migration (db : Db) (phone password freshSalt : String)
    (now : Nat) (u : UserRecord)
    (hu : alookup phone db.users = some u)
    (hsalt : u.salt = none)
    (hhash : u.password_hash = .sha256 password)
    (hnl : isAccountLocked u now = false) :
    (validateUser db phone password now freshSalt).result = true ∧
    (validateUser db phone password now freshSalt).saved = true ∧
    alookup phone (validateUser db phone password now freshSalt).db.users =
      some (migratedRecord u password freshSalt now) ∧
    (migratedRecord u password freshSalt now).salt = some freshSalt ∧
    (∀ now' fs',
      isAccountLocked (migratedRecord u password freshSalt now) now' = false →
      (validateUser (validateUser db phone password now freshSalt).db
        phone password now' fs').result = true) ∧
    (∀ ops u'',
      alookup phone
        (applyDbOps (validateUser db phone password now freshSalt).db
          ops).users = some u'' →
      u''.salt.isSome) := by
  have he : validateUser db phone password now freshSalt =
      ⟨true,
        saveDatabasePure now
          { db with
            users := ainsert phone (migratedRecord u password freshSalt now) db.users },
        true⟩ := by
    simp [validateUser, hu, hnl, hsalt, hhash, hashPassword, migratedRecord]
  have hlook : alookup phone
      (validateUser db phone password now freshSalt).db.users =
      some (migratedRecord u password freshSalt now) := by
    rw [he]
    simpa [saveDatabasePure] using
      alookup_ainsert_self phone (migratedRecord u password freshSalt now) db.users
  refine ⟨by rw [he], by rw [he], hlook, by simp [migratedRecord], ?_, ?_⟩
  · intro now' fs' hnl'
    exact validateUser_correct_salted _ phone password freshSalt now' fs'
      (migratedRecord u password freshSalt now) hlook
      (by simp [migratedRecord]) (by simp [migratedRecord]) hnl'
  · intro ops u'' hu''
    refine saltSome_applyDbOps phone _ ops ?_ u'' hu''
    intro w hw
    rw [hlook] at hw
    cases Option.some.inj hw
    simp [migratedRecord]

/-- A database holding one manually constructed legacy record
(`salt = null`, `password_hash = sha256("clave123")`). -/
def c3Db : Db :=
  { metadata :=
      { version := "2.1.0", created_at := 0, last_modified := 0
        user_count := 1
        integrity_hash := calculateIntegrityHash
          [("3009876543", ⟨.sha256 "clave123", none, 0, none, true, 0, none, []⟩)] }
    users := [("3009876543", ⟨.sha256 "clave123", none, 0, none, true, 0, none, []⟩)] }

theorem c3_legacy_migration_witness :
    (validateUser c3Db "3009876543" "clave123" 2 "bb").result = true ∧
    alookup "3009876543"
      (validateUser c3Db "3009876543" "clave123" 2 "bb").db.users =
      some (migratedRecord ⟨.sha256 "clave123", none, 0, none, true, 0, none, []⟩
        "clave123" "bb" 2) ∧
    (validateUser (validateUser c3Db "3009876543" "clave123" 2 "bb").db
      "3009876543" "clave123" 3 "cc").result = true := by
  have h := c3_legacy_migration c3Db "3009876543" "clave123" "bb" 2
    ⟨.sha256 "clave123", none, 0, none, true, 0, none, []⟩
    (by decide) rfl rfl (by decide)
  exact ⟨h.1, h.2.2.1, h.2.2.2.2.1 3 "cc" (by decide)⟩

/-! ## C4 — postcondition of a successful `validate_user` -/

/-- C4 (amended): every `validate_user` call that returns true resets
`login_attempts` to 0, stamps `last_login` with the current time and
persists the database; on the salted (PBKDF2) path `locked_until` is also
cleared, but on the legacy-migration path `locked_until` is left exactly as
it was (the migration branch never touches it). -/
theorem c4_validate_success_postcondition (db : Db) (phone pw : String)
    (now : Nat) (fs : String)
    (hres : (validateUser db phone pw now fs).result = true) :
    ∃ u u', alookup phone db.users = some u ∧
      alookup phone (validateUser db phone pw now fs).db.users = some u' ∧
      u'.login_attempts = 0 ∧
      u'.last_login = some now ∧
      (validateUser db phone pw now fs).saved = true ∧
      (u.salt.isSome = true → u'.locked_until = none) ∧
      (u.salt = none → u'.locked_until = u.locked_until) := by
  cases hl : alookup phone db.users with
  | none => simp [validateUser, hl] at hres
  | some u =>
    by_cases hlk : isAccountLocked u now = true
    · simp [validateUser, hl, hlk] at hres
    · cases hs : u.salt with
      | none =>
        by_cases hsh : Digest.sha256 pw = u.password_hash
        · have he : validateUser db phone pw now fs =
            ⟨true,
              saveDatabasePure now
                { db with
                  users := ainsert phone { u with
                    password_hash := .pbkdf2Sha256 pw fs 100000
                    salt := some fs
                    login_attempts := 0
                    last_login := some now } db.users },
              true⟩ := by
            simp [validateUser, hl, hlk, hs, hsh, hashPassword]
          refine ⟨u, { u with
              password_hash := .pbkdf2Sha256 pw fs 100000
              salt := some fs
              login_attempts := 0
              last_login := some now }, rfl, ?_, rfl, rfl, by rw [he], ?_,
            fun _ => rfl⟩
          · rw [he]
            simpa [saveDatabasePure] using alookup_ainsert_self phone _ db.users
          · intro hso
            rw [hs] at hso
            simp at hso
        · simp [validateUser, hl, hlk, hs, hsh] at hres
      | some s =>
        by_cases hsh : Digest.pbkdf2Sha256 pw s 100000 = u.password_hash
        · have he : validateUser db phone pw now fs =
            ⟨true,
              saveDatabasePure now
                { db with
                  users := ainsert phone { u with
                    login_attempts := 0
                    last_login := some now
                    locked_until := none } db.users },
              true⟩ := by
            simp [validateUser, hl, hlk, hs, hsh, hashPassword]
          refine ⟨u, { u with
              login_attempts := 0
              last_login := some now
              locked_until := none }, rfl, ?_, rfl, rfl, by rw [he],
            fun _ => rfl, ?_⟩
          · rw [he]
            simpa [saveDatabasePure] using alookup_ainsert_self phone _ db.users
          · intro h0
            rw [hs] at h0
            exact absurd h0 (by simp)
        · simp [validateUser, hl, hlk, hs, hsh, hashPassword] at hres

/-- A manually constructed legacy record carrying an (expired) lock. -/
def c4Db : Db :=
  { metadata :=
      { version := "2.1.0", created_at := 0, last_modified := 0
        user_count := 1
        integrity_hash := calculateIntegrityHash
          [("3001234567", ⟨.sha256 "abc123", none, 0, none, true, 0, some 10, []⟩)] }
    users := [("3001234567", ⟨.sha256 "abc123", none, 0, none, true, 0, some 10, []⟩)] }

/-- C4 counterexample: a `validate_user` call that returns true (legacy
migration at time 20 on a record whose lock expired at 10) leaves
`locked_until = 10`, not null, contradicting the claim for legacy records. -/
theorem c4_counterexample_legacy_keeps_lock :
    (validateUser c4Db "3001234567" "abc123" 20 "ns").result = true ∧
    ((alookup "3001234567"
        (validateUser c4Db "3001234567" "abc123" 20 "ns").db.users).bind
      UserRecord.locked_until) = some 10 := by
  exact ⟨by decide, by decide⟩

/-- A database holding one salted user (integrity hash irrelevant to
`validate_user`). -/
def c4GoodDb : Db :=
  { metadata :=
      { version := "2.1.0", created_at := 0, last_modified := 0
        user_count := 1, integrity_hash := .sha256 "" }
    users := [("3001234567", newUserRecord "abc123" "aa" 0)] }

theorem c4_validate_success_postcondition_witness :
    ∃ u u', alookup "3001234567" c4GoodDb.users = some u ∧
      alookup "3001234567"
        (validateUser c4GoodDb "3001234567" "abc123" 5 "zz").db.users = some u' ∧
      u'.login_attempts = 0 ∧
      u'.last_login = some 5 ∧
      (validateUser c4GoodDb "3001234567" "abc123" 5 "zz").saved = true ∧
      (u.salt.isSome = true → u'.locked_until = none) ∧
      (u.salt = none → u'.locked_until = u.locked_until) :=
  c4_validate_success_postcondition c4GoodDb "3001234567" "abc123" 5 "zz"
    (by decide)

/-! ## C5 — conversation-history bounds -/

theorem evictOversize_le (l : List ConvEntry) :
    totalLen (evictOversize l) ≤ 50000 := by
  induction l with
  | nil => simp [evictOversize, totalLen]
  | cons e t ih =>
    unfold evictOversize
    by_cases h : 50000 < totalLen (e :: t)
    · simpa [h] using ih
    · simpa [h] using Nat.le_of_not_lt h

theorem evictOversize_suffix (l : List ConvEntry) : evictOversize l <:+ l := by
  induction l with
  | nil => simp [evictOversize]
  | cons e t ih =>
    unfold evictOversize
    by_cases h : 50000 < totalLen (e :: t)
    · simp only [h, if_true]
      exact ih.trans (List.suffix_cons e t)
    · simp [h]

theorem totalLen_suffix_le {l1 l2 : List ConvEntry} (h : l1 <:+ l2) :
    totalLen l1 ≤ totalLen l2 := by
  obtain ⟨pre, rfl⟩ := h
  simp only [totalLen, List.map_append, List.sum_append]
  exact Nat.le_add_left _ _

/-- C5: when every existing entry's stored `length` field is consistent
(`length == len(user) + len(bot)`, which `add_conversation_entry` itself
guarantees), after any `add_conversation_entry` call the history holds at
most 50000 characters and at most 100 entries, and is a suffix of the old
history plus the new entry — i.e. only the oldest entries were evicted. -/
theorem c5_conversation_bounds (m : Memory) (userMsg botResp : String)
    (now : Nat)
    (hwf : ∀ e ∈ m.conversation_history,
      e.length = e.user.length + e.bot.length) :
    (((addConversationEntry m userMsg botResp now).conversation_history.map
        fun e => e.user.length + e.bot.length).sum ≤ 50000) ∧
    (addConversationEntry m userMsg botResp now).conversation_history.length
      ≤ 100 ∧
    (addConversationEntry m userMsg botResp now).conversation_history <:+
      m.conversation_history ++ [mkConvEntry now userMsg botResp] := by
  set L := m.conversation_history ++ [mkConvEntry now userMsg botResp]
    with hLdef
  have hwfL : ∀ e ∈ L, e.length = e.user.length + e.bot.length := by
    intro e he
    rw [hLdef] at he
    rcases List.mem_append.mp he with h1 | h2
    · exact hwf e h1
    · simp only [List.mem_singleton] at h2
      subst h2
      simp [mkConvEntry]
  set E := evictOversize L with hEdef
  have hconv : (addConversationEntry m userMsg botResp now).conversation_history =
      if 100 < E.length then E.drop (E.length - 100) else E := rfl
  have hsufE : E <:+ L := evictOversize_suffix L
  have hEle : totalLen E ≤ 50000 := evictOversize_le L
  have hsufF : (if 100 < E.length then E.drop (E.length - 100) else E) <:+ E := by
    by_cases hb : 100 < E.length
    · rw [if_pos hb]
      exact List.drop_suffix _ E
    · rw [if_neg hb]
  have hsufFL : (if 100 < E.length then E.drop (E.length - 100) else E) <:+ L :=
    hsufF.trans hsufE
  have hFle : totalLen (if 100 < E.length then E.drop (E.length - 100) else E)
      ≤ 50000 := le_trans (totalLen_suffix_le hsufF) hEle
  refine ⟨?_, ?_, ?_⟩
  · rw [hconv]
    have hmap : ((if 100 < E.length then E.drop (E.length - 100) else E).map
        fun e => e.user.length + e.bot.length) =
        (if 100 < E.length then E.drop (E.length - 100) else E).map
          ConvEntry.length :=
      List.map_congr_left fun e he => (hwfL e (hsufFL.subset he)).symm
    rw [hmap]
    exact hFle
  · rw [hconv]
    by_cases hb : 100 < E.length
    · rw [if_pos hb, List.length_drop]
      omega
    · rw [if_neg hb]
      omega
  · rw [hconv]
    exact hsufFL

/-- A fresh memory with an empty history. -/
def c5Mem : Memory :=
  { metadata := ⟨"2.1.0", 0, 0, "3001234567", false⟩
    categories := defaultCategories
    conversation_history := [] }

theorem c5_conversation_bounds_witness :
    (((addConversationEntry c5Mem "hola" "mundo" 3).conversation_history.map
        fun e => e.user.length + e.bot.length).sum ≤ 50000) ∧
    (addConversationEntry c5Mem "hola" "mundo" 3).conversation_history.length
      ≤ 100 ∧
    (addConversationEntry c5Mem "hola" "mundo" 3).conversation_history <:+
      c5Mem.conversation_history ++ [mkConvEntry 3 "hola" "mundo"] :=
  c5_conversation_bounds c5Mem "hola" "mundo" 3 (by simp [c5Mem])

/-! ## C6 — encryption round trip -/

/-- C6: with a key available (`fernet` non-null), `_decrypt_data` inverts
`_encrypt_data` on every string, given the Fernet round-trip property and
that Fernet tokens are non-empty; with no key available both functions are
the identity on every string. -/
theorem c6_encrypt_decrypt_roundtrip (f : Fernet) (v : String)
    (hround : f.decrypt (f.encrypt v) = some v)
    (hne : f.encrypt v ≠ "") :
    decryptData (some f) (encryptData (some f) v) = v ∧
    (∀ w, encryptData none w = w) ∧
    (∀ w, decryptData none w = w) := by
  refine ⟨?_, fun w => rfl, fun w => rfl⟩
  by_cases hv : v = ""
  · subst hv
    simp [encryptData, decryptData]
  · simp [encryptData, decryptData, hv, hne, hround]

/-- A toy Fernet instance (prepend a marker byte) used to exercise the
round-trip theorem on a concrete string. -/
def c6Fernet : Fernet :=
  { encrypt := fun s => "g" ++ s
    decrypt := fun s =>
      match s.data with
      | 'g' :: rest => some ⟨rest⟩
      | _ => none }

theorem c6_encrypt_decrypt_roundtrip_witness :
    decryptData (some c6Fernet) (encryptData (some c6Fernet) "clave")
      = "clave" ∧
    encryptData none "texto" = "texto" ∧
    decryptData none "texto" = "texto" := by
  have h := c6_encrypt_decrypt_roundtrip c6Fernet "clave" (by decide) (by decide)
  exact ⟨h.1, h.2.1 "texto", h.2.2 "texto"⟩

/-! ## C7 — `create_user` contract -/

/-- C7: `create_user` returns true exactly when the phone is 10 digits
starting with '3', the password has ≥ 6 characters with ≥ 3 letters and
≥ 3 digits, and the phone is not yet registered; on success the stored
record is freshly salted PBKDF2 with `is_active`, zeroed counters, no lock
and the default preferences, and the database is persisted with a
recomputed integrity hash; on failure nothing changes and nothing is
saved. -/
theorem c7_create_user_contract (db : Db) (phone password : String)
    (now : Nat) (freshSalt : String) :
    ((createUser db phone password now freshSalt).result =
      (validatePhoneFormat phone && validatePasswordStrength password &&
        (alookup phone db.users).isNone)) ∧
    ((createUser db phone password now freshSalt).result = true →
      (createUser db phone password now freshSalt).saved = true ∧
      alookup phone (createUser db phone password now freshSalt).db.users =
        some (newUserRecord password freshSalt now) ∧
      (createUser db phone password now freshSalt).db.metadata.integrity_hash =
        calculateIntegrityHash
          (createUser db phone password now freshSalt).db.users) ∧
    ((createUser db phone password now freshSalt).result = false →
      (createUser db phone password now freshSalt).db = db ∧
      (createUser db phone password now freshSalt).saved = false) := by
  by_cases h1 : validatePhoneFormat phone = true
  · by_cases h2 : validatePasswordStrength password = true
    · cases hl : alookup phone db.users with
      | some v => simp [createUser, h1, h2, hl]
      | none =>
        have he : createUser db phone password now freshSalt =
            ⟨true,
              saveDatabasePure now
                { db with
                  users := ainsert phone (newUserRecord password freshSalt now) db.users },
              true⟩ := by
          simp [createUser, h1, h2, hl]
        refine ⟨by rw [he]; simp [h1, h2, hl], fun _ => ⟨by rw [he], ?_, ?_⟩,
          fun hf => absurd hf (by rw [he]; simp)⟩
        · rw [he]
          simpa [saveDatabasePure] using
            alookup_ainsert_self phone (newUserRecord password freshSalt now) db.users
        · rw [he]
          simp [saveDatabasePure]
    · simp [createUser, h1, h2]
  · simp [createUser, h1]

/-- C7 witness: the spec's concrete scenario — creating `3001234567` with
`abc123` succeeds, creating it again fails. -/
theorem c7_create_user_contract_witness :
    ((createUser (freshEmptyDb 0) "3001234567" "abc123" 0 "aa").result = true) ∧
    ((createUser (createUser (freshEmptyDb 0) "3001234567" "abc123" 0 "aa").db
        "3001234567" "abc123" 1 "bb").result = false) ∧
    alookup "3001234567"
      (createUser (freshEmptyDb 0) "3001234567" "abc123" 0 "aa").db.users =
      some (newUserRecord "abc123" "aa" 0) := by
  have h1 := c7_create_user_contract (freshEmptyDb 0) "3001234567" "abc123" 0 "aa"
  have h2 := c7_create_user_contract
    (createUser (freshEmptyDb 0) "3001234567" "abc123" 0 "aa").db
    "3001234567" "abc123" 1 "bb"
  refine ⟨h1.1.trans (by decide), h2.1.trans ?_, (h1.2.1 (h1.1.trans (by decide))).2.1⟩
  have hl := (h1.2.1 (h1.1.trans (by decide))).2.1
  simp [hl]

/-! ## C8 — exception propagation at the public boundary -/

/-- C8 (amended): the 13 public operations other than `initialize` never
raise — for every I/O environment (including failing reads and writes) and
every input they return an ordinary value; `initialize` itself never raises
when writes succeed, but propagates the write-failure exception re-raised
by `_create_empty_db` (see the counterexample). -/
theorem c8_public_ops_no_raise
    (env : IOEnv) (fs : FsState) (mf : Option Memory) (fernet : Option Fernet)
    (phone password pref owner category key value description userMsg
      botResp query : String)
    (v : PrefValue) (catFilter : Option String) (now limit : Nat)
    (freshSalt : String) :
    (∃ r, createUserE env fs phone password now freshSalt = .ok r) ∧
    (∃ r, validateUserE env fs phone password now freshSalt = .ok r) ∧
    (∃ r, getUserDataE env fs phone now = .ok r) ∧
    (∃ r, updateUserPreferenceE env fs phone pref v now = .ok r) ∧
    (∃ r, getAllUsersE env fs now = .ok r) ∧
    (∃ r, deleteUserE env fs phone now = .ok r) ∧
    (∃ r, storeItemE env fernet mf owner category key value description now
      = .ok r) ∧
    (∃ r, getItemE env fernet mf owner category key now = .ok r) ∧
    (∃ r, getCategoryItemsE env fernet mf owner category now = .ok r) ∧
    (∃ r, removeItemE env fernet mf owner category key now = .ok r) ∧
    (∃ r, addConversationEntryE env fernet mf owner userMsg botResp now
      = .ok r) ∧
    (∃ r, getRecentConversationsE env fernet mf owner limit now = .ok r) ∧
    (∃ r, searchMemoryE env fernet mf owner query catFilter now = .ok r) ∧
    (env.writeFails = false → ∃ fs', dbInitFs env fs now = .ok fs') := by
  refine ⟨⟨_, rfl⟩, ⟨_, rfl⟩, ⟨_, rfl⟩, ⟨_, rfl⟩, ⟨_, rfl⟩, ⟨_, rfl⟩,
    ⟨_, rfl⟩, ⟨_, rfl⟩, ⟨_, rfl⟩, ?_, ⟨_, rfl⟩, ⟨_, rfl⟩, ⟨_, rfl⟩, ?_⟩
  · by_cases hr : (removeItem (loadMemoryFs env fernet mf owner now)
        category key).1 = true
    · refine ⟨saveMemoryFs env fernet mf
        (removeItem (loadMemoryFs env fernet mf owner now) category key).2 now, ?_⟩
      simp [removeItemE, hr]
    · refine ⟨(false, mf), ?_⟩
      simp [removeItemE, hr]
  · intro hw
    cases hf : fs.usersFile with
    | none =>
      refine ⟨{ usersFile := some (freshEmptyDb now), backups := fs.backups }, ?_⟩
      simp [dbInitFs, hf, createEmptyDbFs, hw]
    | some db =>
      refine ⟨(createBackupFs env fs).2, ?_⟩
      simp [dbInitFs, hf, verifyDatabaseIntegrityFs_true]

/-- C8 counterexample: with the credential file absent and the disk write
failing, `initialize()` propagates the exception re-raised by
`_create_empty_db` instead of returning a default value. -/
theorem c8_counterexample_init_raises :
    dbInitFs ⟨false, true⟩ ⟨none, []⟩ 0 = .error () := rfl

theorem c8_public_ops_no_raise_witness :
    ∃ fs', dbInitFs ⟨false, false⟩ ⟨none, []⟩ 5 = .ok fs' := by
  have h := c8_public_ops_no_raise ⟨false, false⟩ ⟨none, []⟩ none none
    "3001234567" "abc123" "theme" "own" "cat" "k" "v" "" "hola" "chao" "q"
    (.str "dark") none 5 7 "aa"
  exact h.2.2.2.2.2.2.2.2.2.2.2.2.2 rfl

/-! ## C9 — `store_item` timestamps -/

/-- C9 (amended): every `store_item` call — creation and update alike —
stores the item with **both** `created_at` and `last_updated` set to the
current time; `created_at` of an existing item is not preserved. -/
theorem c9_store_item_sets_both_timestamps (m : Memory)
    (category key value description : String) (now : Nat) :
    getItemDetails (storeItem m category key value description now)
      category key = some ⟨value, now, now, description⟩ := by
  unfold storeItem getItemDetails
  cases hc : alookup category m.categories with
  | some c => simp [hc, alookup_ainsert_self]
  | none => simp [hc, alookup_ainsert_self]

/-- A memory holding one existing item created at time 1. -/
def c9Mem : Memory :=
  { metadata := ⟨"2.1.0", 0, 0, "3001234567", false⟩
    categories :=
      [("passwords",
        ⟨[("Netflix", ⟨"Xy9zT3qk", 1, 1, ""⟩)], true, some "Contraseñas seguras"⟩)]
    conversation_history := [] }

/-- C9 counterexample: updating the existing item `passwords/Netflix` at
time 2 rewrites `created_at` from 1 to 2 — the original creation timestamp
is not preserved, contrary to the claim. -/
theorem c9_counterexample_created_at_refreshed :
    getItemDetails c9Mem "passwords" "Netflix" = some ⟨"Xy9zT3qk", 1, 1, ""⟩ ∧
    getItemDetails (storeItem c9Mem "passwords" "Netflix" "Nuevo9x" "" 2)
      "passwords" "Netflix" = some ⟨"Nuevo9x", 2, 2, ""⟩ := by
  exact ⟨by decide, by decide⟩

/-! ## C10 — searching with an empty / whitespace-only query -/

theorem containsSubstr_empty (s : String) : containsSubstr s "" = true := by
  show infixCheck ("" : String).data s.data = true
  have h0 : ("" : String).data = [] := rfl
  rw [h0]
  cases hd : s.data with
  | nil => rfl
  | cons c t => rfl

theorem itemMatches_empty (k : String) (it : MemItem) :
    itemMatches "" k it = true := by
  simp [itemMatches, containsSubstr_empty]

theorem convMatches_empty (c : ConvEntry) : convMatches "" c = true := by
  simp [convMatches, containsSubstr_empty]

theorem filterMap_allMatch (items : List (String × MemItem)) :
    (items.filterMap fun p =>
      if itemMatches "" p.1 p.2 then some (mkMatchEntry p.1 p.2) else none) =
    items.map fun p => mkMatchEntry p.1 p.2 := by
  induction items with
  | nil => rfl
  | cons p t ih =>
    have hp : itemMatches "" p.1 p.2 = true := itemMatches_empty p.1 p.2
    simp [List.filterMap_cons, hp, ih]

theorem searchCats_not_mem (m : Memory) (q : String) (names : List String)
    (acc : List (String × SearchHit)) (k : String) (hk : k ∉ names) :
    alookup k (searchCats m q names acc) = alookup k acc := by
  induction names generalizing acc with
  | nil => rfl
  | cons n rest ih =>
    have hkn : k ≠ n := by
      intro h
      exact hk (by simp [h])
    have hkrest : k ∉ rest := fun h => hk (List.mem_cons_of_mem _ h)
    unfold searchCats
    split
    · exact ih _ hkrest
    · dsimp only
      split
      · exact ih _ hkrest
      · rw [ih _ hkrest, alookup_ainsert_ne _ _ _ _ hkn]

theorem searchCats_lookup_all (m : Memory) (names : List String)
    (acc : List (String × SearchHit)) (name : String) (c : MemCategory)
    (hmem : name ∈ names) (hc : alookup name m.categories = some c)
    (hne : c.items ≠ []) :
    alookup name (searchCats m "" names acc) =
      some (.items (c.items.map fun p => mkMatchEntry p.1 p.2)) := by
  induction names generalizing acc with
  | nil => cases hmem
  | cons n rest ih =>
    by_cases hr : name ∈ rest
    · unfold searchCats
      split
      · exact ih _ hr
      · dsimp only
        split
        · exact ih _ hr
        · exact ih _ hr
    · have hn : name = n := by
        rcases List.mem_cons.mp hmem with h | h
        · exact h
        · exact absurd h hr
      subst hn
      unfold searchCats
      have hne' : ((c.items.filterMap fun p =>
          if itemMatches "" p.1 p.2 then some (mkMatchEntry p.1 p.2)
          else none)).isEmpty = false := by
        rw [filterMap_allMatch]
        cases hcc : c.items with
        | nil => exact absurd hcc hne
        | cons a t => rfl
      simp only [hc, hne', Bool.false_eq_true, if_false]
      rw [searchCats_not_mem m "" rest _ _ hr, filterMap_allMatch,
        alookup_ainsert_self]

/-- C10 (amended): with a query that lowercases-and-strips to the empty
string and no category filter, `search_memory` returns every item of every
non-empty category **except** one literally named `conversation_history`,
and, when the history is non-empty, all conversation entries under the
synthetic `conversation_history` key — which overwrites any same-named
category's matches (Python dict assignment). -/
theorem c10_empty_query_returns_everything (m : Memory) (query : String)
    (hq : pyStrip (pyLower query) = "") :
    (∀ name c, alookup name m.categories = some c → c.items ≠ [] →
      name ≠ "conversation_history" →
      alookup name (searchMemory m query none) =
        some (.items (c.items.map fun p => mkMatchEntry p.1 p.2))) ∧
    (m.conversation_history ≠ [] →
      alookup "conversation_history" (searchMemory m query none) =
        some (.convs m.conversation_history)) := by
  have hfilter : m.conversation_history.filter (convMatches "")
      = m.conversation_history :=
    List.filter_eq_self.mpr fun c _ => convMatches_empty c
  constructor
  · intro name c hc hne hnm
    have hmem : name ∈ m.categories.map Prod.fst :=
      alookup_mem_keys name m.categories c hc
    simp only [searchMemory, hq, hfilter]
    cases hh : m.conversation_history with
    | nil =>
      simp only [List.isEmpty_nil, if_true]
      exact searchCats_lookup_all m _ [] name c hmem hc hne
    | cons e t =>
      simp only [List.isEmpty_cons, Bool.false_eq_true, if_false, if_true]
      rw [alookup_ainsert_ne _ _ _ _ hnm]
      exact searchCats_lookup_all m _ [] name c hmem hc hne
  · intro hh
    simp only [searchMemory, hq, hfilter]
    cases hhh : m.conversation_history with
    | nil => exact absurd hhh hh
    | cons e t =>
      simp only [List.isEmpty_cons, Bool.false_eq_true, if_false, if_true]
      rw [alookup_ainsert_self]

/-- A memory whose categories include one literally named
`conversation_history`, holding an item, next to a non-empty history. -/
def c10Mem : Memory :=
  { metadata := ⟨"2.1.0", 0, 0, "3001234567", false⟩
    categories :=
      [("conversation_history", ⟨[("clave", ⟨"v", 0, 0, "d"⟩)], false, none⟩)]
    conversation_history := [⟨0, "hola", "mundo", 9⟩] }

/-- C10 counterexample: on `c10Mem` the empty query with no filter returns
only the conversation entries under `conversation_history` — the items of
the non-empty category of that same name are overwritten and absent,
contradicting "every item of every non-empty category". -/
theorem c10_counterexample_category_shadowed :
    searchMemory c10Mem "" none =
      [("conversation_history", .convs [⟨0, "hola", "mundo", 9⟩])] := by
  decide

/-- A memory with an ordinary non-empty category and a non-empty history. -/
def c10WMem : Memory :=
  { metadata := ⟨"2.1.0", 0, 0, "3001234567", false⟩
    categories :=
      [("reminders",
        ⟨[("cita", ⟨"lunes", 0, 0, "medico"⟩)], false,
         some "Recordatorios importantes"⟩)]
    conversation_history := [⟨1, "hola", "chao", 8⟩] }

theorem c10_empty_query_returns_everything_witness :
    alookup "reminders" (searchMemory c10WMem "   " none) =
      some (.items [mkMatchEntry "cita" ⟨"lunes", 0, 0, "medico"⟩]) ∧
    alookup "conversation_history" (searchMemory c10WMem "   " none) =
      some (.convs [⟨1, "hola", "chao", 8⟩]) := by
  have h := c10_empty_query_returns_everything c10WMem "   " (by decide)
  exact ⟨h.1 "reminders"
      ⟨[("cita", ⟨"lunes", 0, 0, "medico"⟩)], false,
       some "Recordatorios importantes"⟩ (by decide) (by decide) (by decide),
    h.2 (by decide)⟩
